import Mathlib

/-!
Shallow embedding of `src/app.py` (pine flower phenology detection demo):
the class table, the detection record, the mock detection provider, the
annotator (`draw_detections`) and the statistics aggregator
(`get_statistics`), together with theorems settling the specification
claims about them.

Conventions:
* Python floats are modelled as rationals (`ℚ`).
* Python `random.randint` / `random.random` are modelled with an explicit
  oracle (`RandOracle`) supplying the raw draws; `randint` clamps the oracle
  value into the requested range and fails (`Except.error`) exactly when the
  range is empty, matching `ValueError` in Python.
* The image is modelled as a canvas size plus the list of drawing commands
  issued on it (`PImage`); PIL's `image.copy()` is object duplication, so
  object identity is modelled separately by a store of images
  (`draw_detectionsRef`) when a claim is about mutation.
-/

namespace PineFlower

/-- An RGB colour triple, as used in `PINE_FLOWER_CLASSES`. -/
structure RGB where
  r : Int
  g : Int
  b : Int
deriving DecidableEq, Repr

/-- One entry of the class table: `{'name': …, 'color': …, 'display_name': …}`. -/
structure ClassInfo where
  name : String
  color : RGB
  display_name : String
deriving DecidableEq, Repr

/-- `PINE_FLOWER_CLASSES` (app.py lines 26–30): the fixed mapping from
class id to class metadata; `none` models a missing key. -/
def PINE_FLOWER_CLASSES (class_id : Int) : Option ClassInfo :=
  if class_id = 0 then some ⟨"elongation stage", ⟨0, 255, 0⟩, "Elongation Stage"⟩
  else if class_id = 1 then some ⟨"ripening stage", ⟨255, 165, 0⟩, "Ripening Stage"⟩
  else if class_id = 2 then some ⟨"decline stage", ⟨255, 0, 0⟩, "Decline Stage"⟩
  else none

/-- The fallback dict used by `detect_image` when `class_id` is absent from
the table (app.py lines 82–84). -/
def unknownClassInfo : ClassInfo :=
  ⟨"unknown", ⟨255, 165, 0⟩, "Unknown Stage"⟩

/-- The canonical detection record appended by `detect_image` / `mock_detect`
(app.py lines 86–93 and 208–215). Coordinates and confidence are rationals
(Python floats). -/
structure Detection where
  bbox : ℚ × ℚ × ℚ × ℚ
  confidence : ℚ
  class_name : String
  display_name : String
  class_id : Int
  color : RGB
deriving DecidableEq, Repr

/-- `PINE_FLOWER_CLASSES.get(class_id, {...unknown...})` (app.py lines 82–84). -/
def classInfoFor (class_id : Int) : ClassInfo :=
  (PINE_FLOWER_CLASSES class_id).getD unknownClassInfo

/-- The normalisation step of `detect_image` (app.py lines 82–93): build the
canonical detection record for one raw provider output
`(bbox, confidence, class_id)`. -/
def normalizeDetection (bbox : ℚ × ℚ × ℚ × ℚ) (confidence : ℚ) (class_id : Int) :
    Detection :=
  let class_info := classInfoFor class_id
  { bbox := bbox
    confidence := confidence
    class_name := class_info.name
    display_name := class_info.display_name
    class_id := class_id
    color := class_info.color }

/-! ### Statistics aggregator (`get_statistics`, app.py lines 218–229)

The Python function returns a dict; we model it as an association list from
key strings to values, so that which keys the dict has is part of the model. -/

/-- A value stored in the statistics dict: either an int (`total_count`) or
the stage-count mapping (`by_stage`, a `defaultdict(int)` modelled as an
insertion-ordered association list). -/
inductive StatsVal where
  | nat (n : Nat)
  | stage (m : List (String × Nat))
deriving DecidableEq, Repr

/-- Python dict lookup `d[k]` / `k in d`, as an association-list lookup. -/
def pyGet : List (String × StatsVal) → String → Option StatsVal
  | [], _ => none
  | (k', v) :: rest, k => if k' = k then some v else pyGet rest k

/-- `stats['by_stage'][stage] += 1` on a `defaultdict(int)`: increment the
existing entry, or append a new entry with count 1 (dict insertion order). -/
def bumpStage : List (String × Nat) → String → List (String × Nat)
  | [], k => [(k, 1)]
  | (k', v) :: rest, k =>
      if k' = k then (k', v + 1) :: rest else (k', v) :: bumpStage rest k

/-- The `by_stage` mapping built by the loop in `get_statistics`
(app.py lines 225–227). -/
def byStageOf (detections : List Detection) : List (String × Nat) :=
  detections.foldl (fun m det => bumpStage m det.display_name) []

/-- `get_statistics` (app.py lines 218–229): the returned dict. The empty
branch returns `{'total_count': 0, 'by_stage': defaultdict(int)}`; otherwise
`total_count` is set to the list length and `by_stage` is filled by the loop.
Both branches produce a dict with exactly the keys of the initial literal. -/
def get_statistics (detections : List Detection) : List (String × StatsVal) :=
  if detections = [] then
    [("total_count", .nat 0), ("by_stage", .stage [])]
  else
    [("total_count", .nat detections.length), ("by_stage", .stage (byStageOf detections))]

/-- The key set of the dict built by `get_statistics`: the initial literal
`{'total_count': 0, 'by_stage': defaultdict(int)}` fixes the keys and no
later assignment adds one. -/
def statsKeys : List String := ["total_count", "by_stage"]

/-! ### Randomness model

`random.randint(a, b)` returns an integer in `[a, b]` and raises
`ValueError` when `b < a`; `random.random()` returns a float in `[0, 1)`.
An oracle supplies the raw draws: `ints k` is the value chosen by the
`k`-th `randint` call, clamped into the requested range, and `floats k` the
value of the `k`-th `random()` call, clamped into `[0, 1)`. Every concrete
run of the Python code corresponds to some oracle. -/

structure RandOracle where
  ints : Nat → Int
  floats : Nat → ℚ

/-- Clamp an oracle integer into `[lo, hi]` (only used when `lo ≤ hi`). -/
def clampInt (lo hi v : Int) : Int := max lo (min hi v)

/-- Clamp an oracle rational into `[0, 1)`, the range of `random.random()`. -/
def clampFloat (q : ℚ) : ℚ := if 0 ≤ q ∧ q < 1 then q else 0

/-- `random.randint(lo, hi)`: `ValueError` on an empty range, otherwise some
integer in `[lo, hi]` (the clamped oracle draw). -/
def randint (lo hi v : Int) : Except String Int :=
  if hi < lo then .error "ValueError: empty range for randrange" else .ok (clampInt lo hi v)

/-- Python `round(x, 2)` on a non-negative value: round `100·x` to the
nearest integer and divide back by 100. -/
def round2 (q : ℚ) : ℚ := (round (q * 100) : ℚ) / 100

/-! ### Mock detection provider (`mock_detect`, app.py lines 188–216) -/

/-- One iteration of the `mock_detect` loop (app.py lines 199–215): draw
`x1`, `y1`, the two side lengths, the confidence and the class id, then index
`PINE_FLOWER_CLASSES[class_id]` (a `KeyError` if absent) and build the
detection record. The `i`-th iteration consumes the `randint` draws
`5*i+1 … 5*i+5` (draw 0 is `num_detections`) and the `i`-th `random()` draw. -/
def mkMockDetection (width height : Int) (o : RandOracle) (i : Nat) :
    Except String Detection :=
  match randint 50 (width - 150) (o.ints (5 * i + 1)) with
  | .error e => .error e
  | .ok x1 =>
  match randint 50 (height - 150) (o.ints (5 * i + 2)) with
  | .error e => .error e
  | .ok y1 =>
  match randint 80 200 (o.ints (5 * i + 3)) with
  | .error e => .error e
  | .ok dx =>
  match randint 80 200 (o.ints (5 * i + 4)) with
  | .error e => .error e
  | .ok dy =>
  let x2 := x1 + dx
  let y2 := y1 + dy
  let confidence := round2 (7/10 + clampFloat (o.floats i) * (25/100))
  match randint 0 2 (o.ints (5 * i + 5)) with
  | .error e => .error e
  | .ok class_id =>
  match PINE_FLOWER_CLASSES class_id with
  | none => .error "KeyError"
  | some class_info =>
      .ok { bbox := ((x1 : ℚ), (y1 : ℚ), (x2 : ℚ), (y2 : ℚ))
            confidence := confidence
            class_name := class_info.name
            display_name := class_info.display_name
            class_id := class_id
            color := class_info.color }

/-- The Python `for i in range(num)` loop appending one detection per
iteration; the loop aborts at the first raised exception. -/
def mockLoop (f : Nat → Except String Detection) : List Nat → Except String (List Detection)
  | [] => .ok []
  | i :: rest =>
      match f i with
      | .error e => .error e
      | .ok d =>
          match mockLoop f rest with
          | .error e => .error e
          | .ok ds => .ok (d :: ds)

/-- `mock_detect` (app.py lines 188–216): draw `num_detections ∈ [2, 4]`,
then run the loop. The image only contributes its width and height. -/
def mock_detect (width height : Int) (o : RandOracle) : Except String (List Detection) :=
  match randint 2 4 (o.ints 0) with
  | .error e => .error e
  | .ok num => mockLoop (mkMockDetection width height o) (List.range num.toNat)

/-! ### Annotator (`draw_detections`, app.py lines 115–186)

An image is modelled as its canvas size, an identifier of the underlying
pixel content, and the list of drawing commands issued on it. Two images
with the same canvas, base content and command list are pixel-identical. -/

/-- One PIL drawing command: `draw.rectangle` with optional outline/fill
colours and stroke width, or `draw.text` with a fill colour. -/
inductive DrawOp where
  | rect (x1 y1 x2 y2 : Int) (outline : Option RGB) (fill : Option RGB) (width : Int)
  | text (x y : Int) (label : String) (fill : RGB)
deriving DecidableEq, Repr

/-- An in-memory image: canvas size, base pixel content (by identifier), and
the drawing commands rendered on top of it. -/
structure PImage where
  width : Int
  height : Int
  baseId : Nat
  ops : List DrawOp
deriving DecidableEq, Repr

/-- Python `int(x)` on a float: truncation toward zero. -/
def pyTrunc (q : ℚ) : Int := Int.tdiv q.num (q.den : Int)

/-- Python `f"{conf:.2f}"`: the confidence rendered with two decimal places
(label text only; no claim inspects the digits). -/
def format2 (q : ℚ) : String :=
  let n := round (q * 100)
  let whole := n / 100
  let frac := n % 100
  toString whole ++ "." ++ (if frac < 10 then "0" ++ toString frac else toString frac)

/-- Text measurement (app.py lines 166–172): `draw.textbbox` when available
(the oracle returns `some (w, h)`), otherwise the fallback
`len(label) * 10` by `20`. -/
def textSize (measure : String → Option (Int × Int)) (label : String) : Int × Int :=
  match measure label with
  | some wh => wh
  | none => (10 * (label.length : Int), 20)

/-- `label_y = max(y1 - text_height - 5, 5)` (app.py line 175). -/
def label_y (y1 text_height : Int) : Int := max (y1 - text_height - 5) 5

/-- The label background rectangle
`[x1, label_y, x1 + text_width + 10, label_y + text_height + 5]`
(app.py line 178). -/
def labelRect (x1 y1 text_width text_height : Int) : Int × Int × Int × Int :=
  (x1, label_y y1 text_height, x1 + text_width + 10, label_y y1 text_height + text_height + 5)

/-- The coordinate sanity check `if x1 >= x2 or y1 >= y2: continue`
(app.py lines 150–153), on the truncated bbox. -/
def bboxInvalid (det : Detection) : Bool :=
  let x1 := pyTrunc det.bbox.1
  let y1 := pyTrunc det.bbox.2.1
  let x2 := pyTrunc det.bbox.2.2.1
  let y2 := pyTrunc det.bbox.2.2.2
  x2 ≤ x1 || y2 ≤ y1

/-- The body of the drawing loop for one detection (app.py lines 140–183):
skip an invalid box, otherwise draw the outlined box, the filled label strip
and the white label text. -/
def drawOne (measure : String → Option (Int × Int)) (img : PImage) (det : Detection) :
    PImage :=
  if bboxInvalid det then img
  else
    let x1 := pyTrunc det.bbox.1
    let y1 := pyTrunc det.bbox.2.1
    let x2 := pyTrunc det.bbox.2.2.1
    let y2 := pyTrunc det.bbox.2.2.2
    let label := det.display_name ++ " " ++ format2 det.confidence
    let tw := (textSize measure label).1
    let th := (textSize measure label).2
    let lr := labelRect x1 y1 tw th
    { img with ops := img.ops ++
        [ .rect x1 y1 x2 y2 (some det.color) none 4,
          .rect lr.1 lr.2.1 lr.2.2.1 lr.2.2.2 none (some det.color) 1,
          .text (x1 + 5) (label_y y1 th + 2) label ⟨255, 255, 255⟩ ] }

/-- The full drawing loop over the detection list. -/
def drawLoop (measure : String → Option (Int × Int)) (img : PImage)
    (detections : List Detection) : PImage :=
  detections.foldl (drawOne measure) img

/-- `draw_detections` (app.py lines 115–186) as a function on image
contents: with no detections the original image is returned; otherwise
drawing happens on a copy (same contents) of the input. -/
def draw_detections (measure : String → Option (Int × Int)) (image : PImage)
    (detections : List Detection) : PImage :=
  if detections = [] then image else drawLoop measure image detections

/-- `draw_detections` with Python object identity made explicit: a store of
image objects, the input image given by its index. With no detections the
input object itself is returned; otherwise `image.copy()` allocates a new
object, all drawing mutates only the copy, and the copy's index is
returned. -/
def draw_detectionsRef (measure : String → Option (Int × Int)) (store : List PImage)
    (image : Nat) (detections : List Detection) : List PImage × Nat :=
  if detections = [] then (store, image)
  else
    match store[image]? with
    | none => (store, image)
    | some img => (store ++ [drawLoop measure img detections], store.length)

/-- The `except` branch of `detect_image` (app.py lines 108–113): report the
error, then return `self.mock_detect(image)` and the original image. An
exception inside that `mock_detect` call is not caught. -/
def detectImageExceptBranch (image : PImage) (o : RandOracle) :
    Except String (List Detection × PImage) :=
  match mock_detect image.width image.height o with
  | .error e => .error e
  | .ok dets => .ok (dets, image)

/-! ### Concrete inputs used by counterexamples and witnesses -/

/-- The oracle whose every draw is 0: each `randint` returns its lower
bound, `random()` returns 0. -/
def oracleZero : RandOracle := ⟨fun _ => 0, fun _ => 0⟩

/-- The oracle whose every integer draw is 1000: each `randint` returns its
upper bound. -/
def oracleBig : RandOracle := ⟨fun _ => 1000, fun _ => 0⟩

/-- A blank 640×640 image. -/
def img640 : PImage := ⟨640, 640, 0, []⟩

/-- A blank 100×100 image. -/
def imgC3 : PImage := ⟨100, 100, 0, []⟩

/-- A font-metric oracle measuring every label as 50×20 pixels. -/
def measureC3 : String → Option (Int × Int) := fun _ => some (50, 20)

/-- A valid detection whose box starts at the top edge (`y1 = 0`) and close
to the right edge (`x1 = 90`) of a 100×100 canvas. -/
def detC3 : Detection :=
  { bbox := (90, 0, 95, 40)
    confidence := 9/10
    class_name := "elongation stage"
    display_name := "Elongation Stage"
    class_id := 0
    color := ⟨0, 255, 0⟩ }

/-- A malformed detection with `x1 ≥ x2` (`bbox = [100, 50, 80, 150]`). -/
def badDet : Detection :=
  { bbox := (100, 50, 80, 150)
    confidence := 8/10
    class_name := "elongation stage"
    display_name := "Elongation Stage"
    class_id := 0
    color := ⟨0, 255, 0⟩ }

/-! ### Helper lemmas about the randomness model -/

theorem clampInt_mem (lo hi v : Int) (hlh : lo ≤ hi) :
    lo ≤ clampInt lo hi v ∧ clampInt lo hi v ≤ hi :=
  ⟨le_max_left _ _, max_le hlh (min_le_left _ _)⟩

theorem clampFloat_mem (q : ℚ) : 0 ≤ clampFloat q ∧ clampFloat q < 1 := by
  unfold clampFloat
  split
  · next hq => exact hq
  · exact ⟨le_refl 0, by norm_num⟩

theorem randint_ok (lo hi v : Int) (hlh : lo ≤ hi) :
    randint lo hi v = .ok (clampInt lo hi v) := by
  unfold randint
  rw [if_neg (not_lt.2 hlh)]

theorem randint_error (lo hi v : Int) (hlh : hi < lo) :
    randint lo hi v = .error "ValueError: empty range for randrange" := by
  unfold randint
  rw [if_pos hlh]

/-- The rounded confidence `round(0.7 + r * 0.25, 2)` stays in
`[0.70, 0.95]` for `r ∈ [0, 1)`. -/
theorem round2_conf_bounds (c : ℚ) (h0 : 0 ≤ c) (h1 : c < 1) :
    7/10 ≤ round2 (7/10 + c * (25/100)) ∧ round2 (7/10 + c * (25/100)) ≤ 95/100 := by
  have key0 : (70 : Int) ≤ round ((7/10 + c * (25/100)) * 100) := by
    rw [round_eq]
    apply Int.le_floor.2
    push_cast
    nlinarith
  have key1 : round ((7/10 + c * (25/100)) * 100) ≤ 95 := by
    rw [round_eq]
    have hlt : ((7:ℚ)/10 + c * (25/100)) * 100 + 1/2 < ((96 : Int) : ℚ) := by
      push_cast
      nlinarith
    have := Int.floor_lt.2 hlt
    omega
  constructor
  · unfold round2
    rw [le_div_iff₀ (by norm_num : (0:ℚ) < 100)]
    have h70 : ((70 : Int) : ℚ) ≤ (round ((7/10 + c * (25/100)) * 100) : ℚ) := by
      exact_mod_cast key0
    push_cast at h70 ⊢
    linarith
  · unfold round2
    rw [div_le_iff₀ (by norm_num : (0:ℚ) < 100)]
    have h95 : ((round ((7/10 + c * (25/100)) * 100) : Int) : ℚ) ≤ ((95 : Int) : ℚ) := by
      exact_mod_cast key1
    push_cast at h95 ⊢
    linarith

/-! ### Helper lemmas about the mock loop -/

theorem mockLoop_ok_length (f : Nat → Except String Detection) :
    ∀ (l : List Nat) (ds : List Detection), mockLoop f l = .ok ds → ds.length = l.length := by
  intro l
  induction l with
  | nil =>
      intro ds hds
      unfold mockLoop at hds
      cases hds
      rfl
  | cons i rest ih =>
      intro ds hds
      unfold mockLoop at hds
      cases hf : f i with
      | error e => rw [hf] at hds; cases hds
      | ok d =>
          rw [hf] at hds
          cases hrest : mockLoop f rest with
          | error e => rw [hrest] at hds; cases hds
          | ok ds' =>
              rw [hrest] at hds
              cases hds
              simp [ih ds' hrest]

theorem mockLoop_ok_mem (f : Nat → Except String Detection) :
    ∀ (l : List Nat) (ds : List Detection), mockLoop f l = .ok ds →
      ∀ d ∈ ds, ∃ i ∈ l, f i = .ok d := by
  intro l
  induction l with
  | nil =>
      intro ds hds d hd
      unfold mockLoop at hds
      cases hds
      cases hd
  | cons i rest ih =>
      intro ds hds d hd
      unfold mockLoop at hds
      cases hf : f i with
      | error e => rw [hf] at hds; cases hds
      | ok d0 =>
          rw [hf] at hds
          cases hrest : mockLoop f rest with
          | error e => rw [hrest] at hds; cases hds
          | ok ds' =>
              rw [hrest] at hds
              cases hds
              rcases List.mem_cons.1 hd with hEq | hTail
              · exact ⟨i, List.mem_cons_self i rest, hEq ▸ hf⟩
              · obtain ⟨j, hj, hjf⟩ := ih ds' hrest d hTail
                exact ⟨j, List.mem_cons_of_mem i hj, hjf⟩

theorem mockLoop_ok_of_all (f : Nat → Except String Detection) :
    ∀ (l : List Nat), (∀ i ∈ l, ∃ d, f i = .ok d) →
      ∃ ds, mockLoop f l = .ok ds := by
  intro l
  induction l with
  | nil => intro _; exact ⟨[], rfl⟩
  | cons i rest ih =>
      intro hall
      obtain ⟨d, hd⟩ := hall i (List.mem_cons_self i rest)
      obtain ⟨ds, hds⟩ := ih fun j hj => hall j (List.mem_cons_of_mem i hj)
      refine ⟨d :: ds, ?_⟩
      unfold mockLoop
      rw [hd, hds]

theorem mockLoop_error_head (f : Nat → Except String Detection) (i : Nat)
    (l : List Nat) (e : String) (hf : f i = .error e) :
    mockLoop f (i :: l) = .error e := by
  unfold mockLoop
  rw [hf]

/-- The shape of every detection produced by one `mock_detect` iteration. -/
def MockDetShape (width height : Int) (d : Detection) : Prop :=
  (50 : ℚ) ≤ d.bbox.1 ∧ (50 : ℚ) ≤ d.bbox.2.1 ∧
  d.bbox.2.2.1 ≤ (width : ℚ) + 50 ∧ d.bbox.2.2.2 ≤ (height : ℚ) + 50 ∧
  (7/10 : ℚ) ≤ d.confidence ∧ d.confidence ≤ 95/100 ∧
  (d.class_id = 0 ∨ d.class_id = 1 ∨ d.class_id = 2)

/-- For a large enough image, each `mock_detect` iteration succeeds and its
detection satisfies `MockDetShape`. -/
theorem mkMockDetection_ok (width height : Int) (o : RandOracle) (i : Nat)
    (hw : 200 ≤ width) (hh : 200 ≤ height) :
    ∃ d, mkMockDetection width height o i = .ok d ∧ MockDetShape width height d := by
  have hwx : (50 : Int) ≤ width - 150 := by omega
  have hhy : (50 : Int) ≤ height - 150 := by omega
  have hx1 := clampInt_mem 50 (width - 150) (o.ints (5 * i + 1)) hwx
  have hy1 := clampInt_mem 50 (height - 150) (o.ints (5 * i + 2)) hhy
  have hdx := clampInt_mem 80 200 (o.ints (5 * i + 3)) (by omega)
  have hdy := clampInt_mem 80 200 (o.ints (5 * i + 4)) (by omega)
  have hcid := clampInt_mem 0 2 (o.ints (5 * i + 5)) (by omega)
  have hconf := round2_conf_bounds (clampFloat (o.floats i))
    (clampFloat_mem (o.floats i)).1 (clampFloat_mem (o.floats i)).2
  unfold mkMockDetection
  rw [randint_ok _ _ _ hwx, randint_ok _ _ _ hhy,
    randint_ok _ _ _ (by omega : (80 : Int) ≤ 200),
    randint_ok _ _ _ (by omega : (0 : Int) ≤ 2)]
  dsimp only
  set x1 := clampInt 50 (width - 150) (o.ints (5 * i + 1)) with hx1def
  set y1 := clampInt 50 (height - 150) (o.ints (5 * i + 2)) with hy1def
  set dx := clampInt 80 200 (o.ints (5 * i + 3)) with hdxdef
  set dy := clampInt 80 200 (o.ints (5 * i + 4)) with hdydef
  set cid := clampInt 0 2 (o.ints (5 * i + 5)) with hciddef
  obtain ⟨hx1a, hx1b⟩ := hx1
  obtain ⟨hy1a, hy1b⟩ := hy1
  obtain ⟨hdxa, hdxb⟩ := hdx
  obtain ⟨hdya, hdyb⟩ := hdy
  obtain ⟨hcida, hcidb⟩ := hcid
  have hshape : ∀ ci : ClassInfo,
      MockDetShape width height
        { bbox := ((x1 : ℚ), (y1 : ℚ), ((x1 + dx : Int) : ℚ), ((y1 + dy : Int) : ℚ))
          confidence := round2 (7/10 + clampFloat (o.floats i) * (25/100))
          class_name := ci.name
          display_name := ci.display_name
          class_id := cid
          color := ci.color } := by
    intro ci
    unfold MockDetShape
    dsimp only
    refine ⟨?_, ?_, ?_, ?_, hconf.1, hconf.2, by omega⟩
    · exact_mod_cast hx1a
    · exact_mod_cast hy1a
    · exact_mod_cast (by omega : x1 + dx ≤ width + 50)
    · exact_mod_cast (by omega : y1 + dy ≤ height + 50)
  have hc : cid = 0 ∨ cid = 1 ∨ cid = 2 := by omega
  rcases hc with hc | hc | hc <;> rw [hc]
  · rw [show PINE_FLOWER_CLASSES 0 =
        some ⟨"elongation stage", ⟨0, 255, 0⟩, "Elongation Stage"⟩ from rfl]
    exact ⟨_, rfl, by
      simpa [hc] using hshape ⟨"elongation stage", ⟨0, 255, 0⟩, "Elongation Stage"⟩⟩
  · rw [show PINE_FLOWER_CLASSES 1 =
        some ⟨"ripening stage", ⟨255, 165, 0⟩, "Ripening Stage"⟩ from rfl]
    exact ⟨_, rfl, by
      simpa [hc] using hshape ⟨"ripening stage", ⟨255, 165, 0⟩, "Ripening Stage"⟩⟩
  · rw [show PINE_FLOWER_CLASSES 2 =
        some ⟨"decline stage", ⟨255, 0, 0⟩, "Decline Stage"⟩ from rfl]
    exact ⟨_, rfl, by
      simpa [hc] using hshape ⟨"decline stage", ⟨255, 0, 0⟩, "Decline Stage"⟩⟩

/-- For a large enough image, `mock_detect` succeeds with between 2 and 4
detections, all of shape `MockDetShape`. -/
theorem mock_detect_ok (width height : Int) (o : RandOracle)
    (hw : 200 ≤ width) (hh : 200 ≤ height) :
    ∃ dets, mock_detect width height o = .ok dets ∧
      2 ≤ dets.length ∧ dets.length ≤ 4 ∧
      ∀ d ∈ dets, MockDetShape width height d := by
  unfold mock_detect
  rw [randint_ok _ _ _ (by omega : (2 : Int) ≤ 4)]
  dsimp only
  have hnum := clampInt_mem 2 4 (o.ints 0) (by omega)
  set num := clampInt 2 4 (o.ints 0) with hnumdef
  obtain ⟨hn2, hn4⟩ := hnum
  obtain ⟨dets, hdets⟩ := mockLoop_ok_of_all (mkMockDetection width height o)
    (List.range num.toNat)
    (fun j _ => (mkMockDetection_ok width height o j hw hh).imp fun d hd => hd.1)
  refine ⟨dets, hdets, ?_, ?_, ?_⟩
  · have hlen := mockLoop_ok_length _ _ _ hdets
    rw [List.length_range] at hlen
    omega
  · have hlen := mockLoop_ok_length _ _ _ hdets
    rw [List.length_range] at hlen
    omega
  · intro d hd
    obtain ⟨j, _, hj⟩ := mockLoop_ok_mem _ _ _ hdets d hd
    obtain ⟨d', hd', hshape⟩ := mkMockDetection_ok width height o j hw hh
    rw [hj] at hd'
    cases hd'
    exact hshape

/-! ### Claim theorems -/

/-- C1, counterexample: at the concrete input `[]` (the empty detection
list), the dict returned by `get_statistics` has no `avg_confidence` key at
all, whereas the claim requires an `avg_confidence` field equal to 0 there.
The function never computes an average confidence on any path. -/
theorem c1_counterexample :
    pyGet (get_statistics []) "avg_confidence" = none := by decide

/-- C1, amended: the statistics dict computed by `get_statistics` contains
no `avg_confidence` field for any detection list; its keys are exactly
`total_count` and `by_stage`, so no mean (and in particular nothing NaN or
erroneous) is ever produced. -/
theorem c1_no_avg_confidence_field :
    (∀ detections : List Detection,
        pyGet (get_statistics detections) "avg_confidence" = none) ∧
    (∀ detections : List Detection,
        (get_statistics detections).map Prod.fst = statsKeys) := by
  constructor <;> intro dets <;> cases dets <;> simp [get_statistics, pyGet, statsKeys]

/-- C5: `get_statistics` reports `total_count` equal to the length of the
input detection list (0 for the empty list), and for the empty list the
`by_stage` mapping is empty. -/
theorem c5_total_count_and_empty_by_stage :
    (∀ detections : List Detection,
        pyGet (get_statistics detections) "total_count" =
          some (.nat detections.length)) ∧
    pyGet (get_statistics []) "by_stage" = some (.stage []) := by
  constructor
  · intro dets
    cases dets with
    | nil => rfl
    | cons d rest => simp [get_statistics, pyGet]
  · rfl

/-- C6: the annotator applied to any image and an empty detection list
returns the input image unchanged (same canvas, same base pixels, same
drawing commands) — the identity, not an empty canvas. -/
theorem c6_empty_detections_identity (measure : String → Option (Int × Int))
    (image : PImage) :
    draw_detections measure image [] = image := rfl

/-- C9: for every class id present in `PINE_FLOWER_CLASSES`, the detection
record built by the pipeline carries exactly that entry's `display_name`
and `color`; for every id absent from the table the fallback display name
`"Unknown Stage"` is used. -/
theorem c9_class_metadata_resolution :
    (∀ (class_id : Int) (ci : ClassInfo) (bbox : ℚ × ℚ × ℚ × ℚ) (conf : ℚ),
        PINE_FLOWER_CLASSES class_id = some ci →
        (normalizeDetection bbox conf class_id).display_name = ci.display_name ∧
        (normalizeDetection bbox conf class_id).color = ci.color) ∧
    (∀ (class_id : Int) (bbox : ℚ × ℚ × ℚ × ℚ) (conf : ℚ),
        PINE_FLOWER_CLASSES class_id = none →
        (normalizeDetection bbox conf class_id).display_name = "Unknown Stage") := by
  constructor
  · intro cid ci bbox conf hci
    unfold normalizeDetection classInfoFor
    rw [hci]
    exact ⟨rfl, rfl⟩
  · intro cid bbox conf hci
    unfold normalizeDetection classInfoFor
    rw [hci]
    rfl

/-- Witness for C9: class id 0 resolves to the table's `Elongation Stage`
entry with colour `(0, 255, 0)`; the absent id 7 falls back to
`"Unknown Stage"`. -/
theorem c9_witness :
    ((normalizeDetection (0, 0, 10, 10) (1/2) 0).display_name = "Elongation Stage" ∧
      (normalizeDetection (0, 0, 10, 10) (1/2) 0).color = ⟨0, 255, 0⟩) ∧
    (normalizeDetection (0, 0, 10, 10) (1/2) 7).display_name = "Unknown Stage" :=
  ⟨c9_class_metadata_resolution.1 0
      ⟨"elongation stage", ⟨0, 255, 0⟩, "Elongation Stage"⟩ (0, 0, 10, 10) (1/2) rfl,
    c9_class_metadata_resolution.2 7 (0, 0, 10, 10) (1/2) rfl⟩

/-- C2, counterexample: running the `except` branch of `detect_image` on a
blank 640×640 image (with the all-zeros randomness) returns a detection
list of length 2, not the empty list the claim requires: the handler
`return self.mock_detect(image), image` substitutes fresh mock detections,
never an empty set. -/
theorem c2_counterexample :
    ((detectImageExceptBranch img640 oracleZero).toOption.getD ([], img640)).1.length = 2 ∧
    ((detectImageExceptBranch img640 oracleZero).toOption.getD ([], img640)).1 ≠ [] := by
  decide

/-- C2, amended: if the detection provider raises during `detect_image`,
the caller reports the error and proceeds with a fresh mock detection set
(2 to 4 detections) together with the original un-annotated image, rather
than crashing — provided the image is at least 200×200, since the
fallback `mock_detect` call itself raises below that size. -/
theorem c2_error_path_returns_mock (image : PImage) (o : RandOracle)
    (hw : 200 ≤ image.width) (hh : 200 ≤ image.height) :
    ∃ dets, detectImageExceptBranch image o = .ok (dets, image) ∧
      2 ≤ dets.length ∧ dets.length ≤ 4 := by
  obtain ⟨dets, hok, h2, h4, _⟩ := mock_detect_ok image.width image.height o hw hh
  refine ⟨dets, ?_, h2, h4⟩
  unfold detectImageExceptBranch
  rw [hok]

/-- Witness for C2: the amended statement at the blank 640×640 image with
the all-zeros randomness. -/
theorem c2_witness :
    ∃ dets, detectImageExceptBranch img640 oracleZero = .ok (dets, img640) ∧
      2 ≤ dets.length ∧ dets.length ≤ 4 :=
  c2_error_path_returns_mock img640 oracleZero (by decide) (by decide)

/-- C4, counterexample: at a 640×640 image with the all-1000 randomness
(every `randint` hits its upper bound), `mock_detect` returns detections
with `x2 = y2 = 690`, outside the `[640-50, 640-50] = [590, 590]` bounds
the claim requires even though staying within them was feasible; the code
never constrains `x2 = x1 + randint(80, 200)` to the canvas. -/
theorem c4_counterexample :
    ¬ (∀ d ∈ (mock_detect 640 640 oracleBig).toOption.getD [],
        d.bbox.2.2.1 ≤ (590 : ℚ) ∧ d.bbox.2.2.2 ≤ (590 : ℚ)) := by
  decide

/-- C4, amended: for an image at least 200×200, every `mock_detect` output
is a list of 2 to 4 detections (hence also between 1 and 4), each with
`50 ≤ x1` and `50 ≤ y1`, confidence in `[0.70, 0.95]`, class id drawn from
the known classes `{0, 1, 2}`, and a box that can extend up to 50 pixels
beyond the canvas (`x2 ≤ W+50`, `y2 ≤ H+50`) — not confined to the
`[W-50, H-50]` bounds. -/
theorem c4_mock_output_shape (width height : Int) (o : RandOracle)
    (dets : List Detection) (hw : 200 ≤ width) (hh : 200 ≤ height)
    (hok : mock_detect width height o = .ok dets) :
    (2 ≤ dets.length ∧ dets.length ≤ 4) ∧
    ∀ d ∈ dets,
      (50 : ℚ) ≤ d.bbox.1 ∧ (50 : ℚ) ≤ d.bbox.2.1 ∧
      d.bbox.2.2.1 ≤ (width : ℚ) + 50 ∧ d.bbox.2.2.2 ≤ (height : ℚ) + 50 ∧
      (7/10 : ℚ) ≤ d.confidence ∧ d.confidence ≤ 95/100 ∧
      (d.class_id = 0 ∨ d.class_id = 1 ∨ d.class_id = 2) := by
  obtain ⟨dets', hok', h2, h4, hall⟩ := mock_detect_ok width height o hw hh
  rw [hok] at hok'
  injection hok' with heq
  subst heq
  exact ⟨⟨h2, h4⟩, fun d hd => hall d hd⟩

/-- The list `mock_detect` returns on a 640×640 canvas with the all-zeros
randomness. -/
def mockOut640 : List Detection := (mock_detect 640 640 oracleZero).toOption.getD []

/-- Witness for C4: the amended statement at 640×640 with the all-zeros
randomness (the output is `mockOut640`, a 2-element list). -/
theorem c4_witness : 2 ≤ mockOut640.length ∧ mockOut640.length ≤ 4 :=
  (c4_mock_output_shape 640 640 oracleZero mockOut640 (by decide) (by decide) rfl).1

/-- C10: `mock_detect` is total exactly on images at least 200×200: for
`width ≥ 200` and `height ≥ 200` it returns a detection list for every
randomness, while for `width < 200` or `height < 200` the first loop
iteration calls `random.randint` with an empty range
(`width - 150 < 50` resp. `height - 150 < 50`) and raises. -/
theorem c10_mock_totality_threshold :
    (∀ (width height : Int) (o : RandOracle), 200 ≤ width → 200 ≤ height →
        ∃ dets, mock_detect width height o = .ok dets) ∧
    (∀ (width height : Int) (o : RandOracle), width < 200 ∨ height < 200 →
        ∃ e, mock_detect width height o = .error e) := by
  constructor
  · intro width height o hw hh
    obtain ⟨dets, hok, _⟩ := mock_detect_ok width height o hw hh
    exact ⟨dets, hok⟩
  · intro width height o hwh
    unfold mock_detect
    rw [randint_ok _ _ _ (by omega : (2 : Int) ≤ 4)]
    dsimp only
    have hnum := clampInt_mem 2 4 (o.ints 0) (by omega)
    set num := clampInt 2 4 (o.ints 0) with hnumdef
    obtain ⟨hn2, hn4⟩ := hnum
    obtain ⟨k, hk⟩ : ∃ k, num.toNat = k + 1 := ⟨num.toNat - 1, by omega⟩
    rw [hk, List.range_succ_eq_map]
    have h0 : ∃ e, mkMockDetection width height o 0 = .error e := by
      unfold mkMockDetection
      by_cases hw2 : width - 150 < 50
      · rw [randint_error _ _ _ hw2]
        exact ⟨_, rfl⟩
      · rw [randint_ok _ _ _ (by omega)]
        dsimp only
        rw [randint_error _ _ _ (by omega : height - 150 < 50)]
        exact ⟨_, rfl⟩
    obtain ⟨e, he⟩ := h0
    exact ⟨e, mockLoop_error_head _ _ _ _ he⟩

/-- Witness for C10: a 640×640 image is accepted; a 100×640 image makes
`mock_detect` raise. -/
theorem c10_witness :
    (∃ dets, mock_detect 640 640 oracleZero = .ok dets) ∧
    (∃ e, mock_detect 100 640 oracleZero = .error e) :=
  ⟨c10_mock_totality_threshold.1 640 640 oracleZero (by decide) (by decide),
    c10_mock_totality_threshold.2 100 640 oracleZero (Or.inl (by decide))⟩

/-- C3, counterexample: drawing the valid detection `detC3`
(`bbox = (90, 0, 95, 40)`, label measured 50×20) on a 100×100 canvas issues
a label strip whose rectangle runs from x = 90 to x = 150, past
the canvas width 100: the right edge `x1 + text_width + 10` is never
clamped, so the label rectangle does not lie entirely inside the canvas. -/
theorem c3_counterexample :
    (draw_detections measureC3 imgC3 [detC3]).ops[1]? =
      some (.rect 90 5 150 30 none (some ⟨0, 255, 0⟩) 1) ∧
    imgC3.width < 150 := by decide

/-- C3, amended: only the label's vertical position is clamped — the strip's
top `label_y = max(y1 - text_height - 5, 5)` never goes above y = 5, and for
a box with `y1 = 0` the strip sits strictly below the box's top edge rather
than off-canvas above it. The strip's right edge `x1 + text_width + 10` is
not clamped and can extend past the canvas (see the counterexample). -/
theorem c3_label_vertical_clamp :
    (∀ y1 th : Int, 5 ≤ label_y y1 th) ∧ (∀ th : Int, 0 < label_y 0 th) := by
  constructor
  · intro y1 th
    exact le_max_right _ _
  · intro th
    calc (0 : Int) < 5 := by norm_num
    _ ≤ label_y 0 th := le_max_right _ _

/-- C7: the annotator never mutates the caller's image object. In the
store model, after `draw_detections` runs on the image at index `image`,
that index still holds the untouched original: all drawing commands go to a
freshly allocated copy. -/
theorem c7_input_image_unchanged (measure : String → Option (Int × Int))
    (store : List PImage) (image : Nat) (detections : List Detection)
    (himg : image < store.length) :
    ((draw_detectionsRef measure store image detections).1)[image]? = store[image]? := by
  unfold draw_detectionsRef
  split
  · rfl
  · cases hli : store[image]? with
    | none => dsimp only; exact hli
    | some img =>
        dsimp only
        rw [List.getElem?_append_left himg]
        exact hli

/-- Witness for C7: a one-image store; the stored original is unchanged
after drawing a detection on it. -/
theorem c7_witness :
    ((draw_detectionsRef measureC3 [imgC3] 0 [detC3]).1)[0]? = [imgC3][0]? :=
  c7_input_image_unchanged measureC3 [imgC3] 0 [detC3] (by decide)

/-- C8: a detection whose (truncated) bbox has `x1 ≥ x2` or `y1 ≥ y2` is
skipped by the drawing loop without raising: annotating a list containing
such a detection produces exactly the image obtained from the list with
that detection removed, so all remaining detections are still processed. -/
theorem c8_invalid_box_skipped (measure : String → Option (Int × Int)) (img : PImage)
    (pre post : List Detection) (det : Detection) (hinv : bboxInvalid det = true) :
    draw_detections measure img (pre ++ det :: post) =
      draw_detections measure img (pre ++ post) := by
  have hskip : ∀ x : PImage, drawOne measure x det = x := by
    intro x
    simp [drawOne, hinv]
  have hloop : drawLoop measure img (pre ++ det :: post) = drawLoop measure img (pre ++ post) := by
    unfold drawLoop
    rw [List.foldl_append, List.foldl_append, List.foldl_cons, hskip]
  unfold draw_detections
  rw [if_neg (by simp : ¬(pre ++ det :: post = []))]
  by_cases hpp : pre ++ post = []
  · rw [if_pos hpp]
    obtain ⟨hpre, hpost⟩ := List.append_eq_nil.1 hpp
    subst hpre
    subst hpost
    simp [drawLoop, hskip]
  · rw [if_neg hpp]
    exact hloop

/-- Witness for C8: the malformed `badDet` (`bbox = [100, 50, 80, 150]`,
`x1 ≥ x2`) in front of a valid detection is skipped, and the valid one is
still drawn. -/
theorem c8_witness :
    draw_detections measureC3 imgC3 [badDet, detC3] =
      draw_detections measureC3 imgC3 [detC3] :=
  c8_invalid_box_skipped measureC3 imgC3 [] [detC3] badDet (by decide)

end PineFlower
